import Mathlib

/-!
Shallow embedding of src/qlearn.py (snake-simulator): the experience-replay
buffer, reward-shaping state machine, training/checkpoint scheduler and
epsilon-greedy action selection of QLearningAgent, together with theorems
checking the specified properties against this embedding.

Modelling conventions: state tensors are abstracted to natural-number
identifiers (their contents never influence the control logic under study);
rewards are integers as in the source; probabilities and q-values are
rationals; numpy randomness (shuffle outcomes, uniform draws, random action
choices) is passed in explicitly as parameters; python exceptions are
modelled by Option with none for a raise.
-/

namespace QL

/-- Transition record for replay (class Experience in qlearn.py). -/
structure Experience where
  current_state : Nat
  current_action : Nat
  res_reward : Int
  next_state : Nat
deriving DecidableEq, Repr

/-- ReplayMemory state: the python object's _max_size, _arr and _size fields. -/
structure ReplayMemory where
  max_size : Option Nat
  arr : List Experience
  size : Nat
deriving DecidableEq, Repr

/-- ReplayMemory.__init__: empty buffer with the given capacity. -/
def initReplayMemory (max_size : Option Nat) : ReplayMemory :=
  ⟨max_size, [], 0⟩

/-- ReplayMemory.add_experience. The python guard is
`self._size == self._max_size and self._max_size is not None`, i.e.
max_size = some size; the full branch pops index 0 then appends. none models
the IndexError of pop(0) on an empty list (reachable only with max_size 0). -/
def addExperience (m : ReplayMemory) (ex : Experience) : Option ReplayMemory :=
  if m.max_size = some m.size then
    match m.arr with
    | [] => none
    | _ :: rest => some ⟨m.max_size, rest ++ [ex], m.size - 1 + 1⟩
  else
    some ⟨m.max_size, m.arr ++ [ex], m.size + 1⟩

/-- ReplayMemory.get_random_experiences. np.random.shuffle reorders _arr in
place; the shuffle outcome is passed explicitly as the list `shuffled`
(theorems constrain it to be a permutation of the stored contents). The
returned slice is `_arr[0 : num_samples if num_samples < self._size else
self._size]`. -/
def getRandomExperiences (m : ReplayMemory) (shuffled : List Experience)
    (num_samples : Nat) : ReplayMemory × List Experience :=
  (⟨m.max_size, shuffled, m.size⟩,
   shuffled.take (if num_samples < m.size then num_samples else m.size))

/-- Buffer states reachable from a fresh ReplayMemory through the public
operations, where every sample's shuffle is an arbitrary permutation of the
stored contents. -/
inductive Reachable (cap : Option Nat) : ReplayMemory → Prop where
  | init : Reachable cap (initReplayMemory cap)
  | add {m m' : ReplayMemory} {ex : Experience} :
      Reachable cap m → addExperience m ex = some m' → Reachable cap m'
  | sample {m : ReplayMemory} {shuffled : List Experience} {n : Nat} :
      Reachable cap m → shuffled.Perm m.arr →
      Reachable cap (getRandomExperiences m shuffled n).1

lemma reachable_invariant {cap : Option Nat} {m : ReplayMemory}
    (h : Reachable cap m) :
    m.max_size = cap ∧ m.size = m.arr.length ∧
      ∀ c, cap = some c → m.size ≤ c := by
  induction h with
  | init =>
    refine ⟨rfl, rfl, fun c hc => ?_⟩
    simp [initReplayMemory]
  | @add m0 m' ex _ hadd ih =>
    obtain ⟨hcap, hlen, hbnd⟩ := ih
    unfold addExperience at hadd
    by_cases hfull : m0.max_size = some m0.size
    · rw [if_pos hfull] at hadd
      cases harr : m0.arr with
      | nil => rw [harr] at hadd; cases hadd
      | cons e rest =>
        rw [harr] at hadd
        obtain rfl := Option.some.inj hadd
        have hsz : m0.size = rest.length + 1 := by
          rw [hlen, harr]; simp
        refine ⟨hcap, ?_, fun c hc => ?_⟩
        · show m0.size - 1 + 1 = (rest ++ [ex]).length
          simp [hsz]
        · have hceq : m0.size = c :=
            Option.some.inj (by rw [← hfull, hcap, hc])
          show m0.size - 1 + 1 ≤ c
          omega
    · rw [if_neg hfull] at hadd
      obtain rfl := Option.some.inj hadd
      refine ⟨hcap, by simp [hlen], fun c hc => ?_⟩
      have hle := hbnd c hc
      have hne : m0.size ≠ c := by
        intro hEq
        exact hfull (by rw [hcap, hc, hEq])
      show m0.size + 1 ≤ c
      omega
  | @sample m0 shuffled n _ hperm ih =>
    obtain ⟨hcap, hlen, hbnd⟩ := ih
    exact ⟨hcap, by simp [getRandomExperiences, hperm.length_eq, hlen],
      fun c hc => hbnd c hc⟩

/-- Claim C5: for every sequence of add_experience calls (with sample calls
possibly interleaved) on a ReplayMemory constructed with max_size set,
size <= max_size holds after every operation. -/
theorem C5_size_bounded {c : Nat} {m : ReplayMemory}
    (h : Reachable (some c) m) : m.size ≤ c :=
  (reachable_invariant h).2.2 c rfl

def exA : Experience := ⟨0, 0, 0, 0⟩

def exB : Experience := ⟨1, 0, 0, 1⟩

def exC : Experience := ⟨2, 0, 0, 2⟩

theorem C5_size_bounded_witness :
    (⟨some 1, [exB], 1⟩ : ReplayMemory).size ≤ 1 :=
  C5_size_bounded
    (@Reachable.add (some 1) ⟨some 1, [exA], 1⟩ ⟨some 1, [exB], 1⟩ exB
      (@Reachable.add (some 1) (initReplayMemory (some 1)) ⟨some 1, [exA], 1⟩
        exA Reachable.init (by decide))
      (by decide))

/-- Claim C1, evaluated at the failing input (code bug): a buffer at capacity 2
holding exA then exB (exA the oldest), after one get_random_experiences call
whose shuffle reversed the storage to [exB, exA], evicts exB - not the
oldest-inserted exA - on the next add_experience; the in-place shuffle
corrupts FIFO eviction. -/
theorem C1_shuffle_breaks_fifo :
    ((addExperience (initReplayMemory (some 2)) exA).bind fun m1 =>
      (addExperience m1 exB).bind fun m2 =>
        addExperience ((getRandomExperiences m2 [exB, exA] 1).1) exC) =
      some ⟨some 2, [exA, exC], 2⟩ ∧
    ([exB, exA] : List Experience).Perm [exA, exB] ∧ exA ≠ exB := by
  refine ⟨by decide, ?_, by decide⟩
  exact List.Perm.swap exA exB []

/-- Claim C9: sample(n) returns exactly min(n, size) experiences, never fails
(the embedding is total), and - the stored slots being pairwise distinct -
contains no duplicate within one call, for every n including n > size and the
empty buffer. -/
theorem C9_sample_size {m : ReplayMemory} {shuffled : List Experience}
    {n : Nat} (hperm : shuffled.Perm m.arr)
    (hsz : m.size = m.arr.length) :
    (getRandomExperiences m shuffled n).2.length = min n m.size ∧
    (m.arr.Nodup → (getRandomExperiences m shuffled n).2.Nodup) := by
  have hlen : shuffled.length = m.size := by
    rw [hperm.length_eq, hsz]
  constructor
  · simp only [getRandomExperiences, List.length_take, hlen]
    split <;> omega
  · intro hnd
    have hshuf : shuffled.Nodup := hperm.nodup_iff.mpr hnd
    exact ((List.take_sublist _ _).nodup hshuf)

theorem C9_sample_size_witness :
    (getRandomExperiences ⟨some 5, [exA, exB], 2⟩ [exB, exA] 5).2.length =
      min 5 (⟨some 5, [exA, exB], 2⟩ : ReplayMemory).size ∧
    ((⟨some 5, [exA, exB], 2⟩ : ReplayMemory).arr.Nodup →
      (getRandomExperiences ⟨some 5, [exA, exB], 2⟩ [exB, exA] 5).2.Nodup) :=
  C9_sample_size (by exact List.Perm.swap exA exB []) rfl

/-- The reward constants of class QLearningParams. -/
structure QLearningParams where
  wall : Int
  snake_hit : Int
  reward : Int
  other : Int
deriving DecidableEq, Repr

/-- The QLearningParams instance built at the end of QLearningAgent.__init__. -/
def defaultQLearnParams : QLearningParams := ⟨-20, -20, 20, -2⟩

/-- The mutable fields of a QLearningAgent that the tick logic reads or
writes, plus the configuration fixed at construction. The keras model, the
simulator handle and the wall-clock _last_reward_time are external and not
part of the embedded state. -/
structure AgentState where
  epsilon : ℚ
  batch_size : Nat
  replay_memory : ReplayMemory
  current_state : Option Nat
  current_action : Option Nat
  rewarded_currently : Bool
  collision_count : Nat
  save_after : Option Nat
  training_model : Bool
  train_each_step : Bool
  steps_without_reward : Nat
  input_shape : Nat × Nat
  num_outputs : Nat
  qlearn_params : QLearningParams
deriving DecidableEq, Repr

/-- QLearningAgent._get_reward: base reward from the raw collision flags. -/
def getReward (p : QLearningParams) (reward_collision wall_collision : Bool) :
    Int :=
  if wall_collision = true then p.wall
  else if reward_collision = true then p.reward
  else p.other

def argmaxGo : List ℚ → Nat → ℚ → Nat → Nat
  | [], _, _, best => best
  | x :: xs, i, bv, best =>
      if bv < x then argmaxGo xs (i + 1) x i else argmaxGo xs (i + 1) bv best

/-- np.argmax: index of the first maximal entry (0 on empty input, which the
source never produces since num_outputs is positive). -/
def argmax : List ℚ → Nat
  | [] => 0
  | x :: xs => argmaxGo xs 1 x 0

/-- Action selection inlined in QLearningAgent.update (lines 169-172): greedy
argmax over the predicted q-values, replaced by a random action while training
when the uniform draw exceeds epsilon. -/
def chooseAction (predict : Nat → List ℚ) (rand : ℚ) (randomAction : Nat)
    (epsilon : ℚ) (training_model : Bool) (inputs : Nat) : Nat :=
  let greedy := argmax (predict inputs)
  if epsilon < rand ∧ training_model = true then randomAction else greedy

/-- Observable side effects of one tick, in execution order. -/
inductive TickEvent where
  | computeBaseReward
  | saveCheckpoint (tag : Nat)
  | collisionTrain
  | shapeReward
  | storeExperience
  | stepTrain
  | selectAction (a : Nat)
  | requestRestart
deriving DecidableEq, Repr

/-- The agent-state effect of one _train_model call: get_random_experiences
shuffles the replay buffer in place (batch_size samples are taken); fitting
the keras model is external to the embedded state. -/
def trainStep (shuffle : List Experience → List Experience) (s : AgentState) :
    AgentState :=
  { s with replay_memory :=
      (getRandomExperiences s.replay_memory (shuffle s.replay_memory.arr)
        s.batch_size).1 }

/-- QLearningAgent._handle_collision. none models the exception raised by
collision_count % save_after when save_after is None (TypeError, the
constructor default) or 0 (ZeroDivisionError). On a wall collision the save
test runs on collision_count before it is incremented, then one training pass
runs if training is enabled, then the count is incremented. -/
def handleCollision (shuffle : List Experience → List Experience)
    (s : AgentState) (wall_collision : Bool) :
    Option (AgentState × List TickEvent) :=
  if wall_collision = true then
    match s.save_after with
    | none => none
    | some sa =>
      if sa = 0 then none
      else
        let evSave :=
          if s.collision_count % sa = 0 then
            [TickEvent.saveCheckpoint s.collision_count]
          else []
        let st :=
          if s.training_model = true then
            (trainStep shuffle s, [TickEvent.collisionTrain])
          else (s, ([] : List TickEvent))
        some ({ st.1 with collision_count := st.1.collision_count + 1 },
          evSave ++ st.2)
  else some (s, [])

/-- QLearningAgent._handle_reward: the reward-shaping state machine. Returns
the updated state, the shaped reward and the restart flag. The wall-clock
_last_reward_time write on a fresh reward is not modelled. -/
def handleReward (s : AgentState) (reward : Int) (reward_collision : Bool) :
    AgentState × Int × Bool :=
  if reward_collision = true then
    let s1 := { s with steps_without_reward := 0, rewarded_currently := true }
    if s.rewarded_currently = true then
      (s1, reward - (s.qlearn_params.reward - s.qlearn_params.other), false)
    else
      (s1, reward, false)
  else
    let s1 := { s with steps_without_reward := s.steps_without_reward + 1,
                       rewarded_currently := false }
    if s.input_shape.1 * s.input_shape.2 ≤ s.steps_without_reward + 1 then
      (s1, reward + s.qlearn_params.wall, true)
    else
      (s1, reward, false)

/-- QLearningAgent._handle_experience: when a previous state exists, store the
transition for it, then capture the current inputs as _current_state.
_current_action is always set before the first stored experience, so the
getD default is unreachable from agent runs. -/
def handleExperience (s : AgentState) (reward : Int) (inputs : Nat) :
    Option (AgentState × List TickEvent) :=
  match s.current_state with
  | some prev =>
    match addExperience s.replay_memory
        ⟨prev, s.current_action.getD 0, reward, inputs⟩ with
    | none => none
    | some m =>
        some ({ s with replay_memory := m, current_state := some inputs },
          [TickEvent.storeExperience])
  | none => some ({ s with current_state := some inputs }, [])

/-- QLearningAgent._handle_training: one extra training pass per tick when
both training_model and train_each_step are enabled. -/
def handleTraining (shuffle : List Experience → List Experience)
    (s : AgentState) : AgentState × List TickEvent :=
  if s.training_model = true ∧ s.train_each_step = true then
    (trainStep shuffle s, [TickEvent.stepTrain])
  else (s, [])

/-- QLearningAgent.update, one simulation tick. External nondeterminism is
explicit: shuffle (np.random.shuffle outcomes inside training passes),
predict (the keras model read at the current inputs), rand (np.random.rand)
and randomAction (np.random.choice). Returns none when the python code would
raise; otherwise the new agent state, the chosen action and the trace of side
effects in execution order. epsilon and training_model are read from the
incoming state: no handler writes them. -/
def update (shuffle : List Experience → List Experience)
    (predict : Nat → List ℚ) (rand : ℚ) (randomAction : Nat) (s : AgentState)
    (inputs : Nat) (reward_collision wall_collision : Bool) :
    Option (AgentState × Nat × List TickEvent) :=
  let baseReward := getReward s.qlearn_params reward_collision wall_collision
  match handleCollision shuffle s wall_collision with
  | none => none
  | some (s1, evc) =>
    match handleReward s1 baseReward reward_collision with
    | (s2, reward, restart) =>
      match handleExperience s2 reward inputs with
      | none => none
      | some (s3, eve) =>
        match handleTraining shuffle s3 with
        | (s4, evt) =>
          let action :=
            chooseAction predict rand randomAction s.epsilon s.training_model
              inputs
          let s5 := { s4 with current_action := some action }
          let s6 :=
            if restart = true then { s5 with steps_without_reward := 0 }
            else s5
          let evr :=
            if restart = true then [TickEvent.requestRestart] else []
          some (s6, action,
            TickEvent.computeBaseReward ::
              (evc ++ TickEvent.shapeReward ::
                (eve ++ evt ++ TickEvent.selectAction action :: evr)))

/-- Training tensors built by one _train_model call: an X row is none while it
still holds its np.zeros initial value, some state once overwritten. -/
structure TrainTensors where
  X_train : List (Option Nat)
  y_train : List (List ℚ)
  fit_called : Bool
deriving DecidableEq, Repr

def maxList : List ℚ → ℚ
  | [] => 0
  | x :: xs => xs.foldl max x

/-- QLearningAgent._train_model applied to the sampled batch: X_train and
y_train are allocated with the configured batch_size rows (np.zeros); row i is
overwritten for the i-th batch element with its state and the TD-updated
prediction (only index current_action changes); model.fit is then always
called on the full tensors. -/
def trainModel (predict : Nat → List ℚ) (y : ℚ) (batch_size num_outputs : Nat)
    (batch : List Experience) : TrainTensors :=
  let row := fun (i : Nat) =>
    match batch[i]? with
    | some e =>
        let q_pred := predict e.current_state
        let q_target := (e.res_reward : ℚ) + y * maxList (predict e.next_state)
        (some e.current_state, q_pred.set e.current_action q_target)
    | none => (none, List.replicate num_outputs 0)
  let rows := (List.range batch_size).map row
  ⟨rows.map Prod.fst, rows.map Prod.snd, true⟩

def idShuffle : List Experience → List Experience := fun l => l

def predictC : Nat → List ℚ := fun _ => [3, 1]

/-- A concretely configured agent right before its second tick: one previous
state captured, training enabled, save_after = 5, a 10 x 10 grid, empty
replay buffer of capacity 100. -/
def baseAgent : AgentState :=
  { epsilon := 1, batch_size := 2, replay_memory := ⟨some 100, [], 0⟩,
    current_state := some 7, current_action := some 1,
    rewarded_currently := false, collision_count := 0,
    save_after := some 5, training_model := true, train_each_step := false,
    steps_without_reward := 0, input_shape := (10, 10), num_outputs := 2,
    qlearn_params := defaultQLearnParams }

/-- Claim C2, evaluated at the failing input (code bug): _train_model on an
empty ReplayMemory samples an empty batch, yet builds X_train and y_train
with batch_size = 2 zero-filled rows - sized to the configured batch_size,
not the actual sampled count 0 - and still calls model.fit on them, so the
training pass is not a no-op on an empty batch. -/
theorem C2_empty_batch_not_noop :
    trainModel predictC (9 / 10) 2 2
        (getRandomExperiences (initReplayMemory (some 100)) [] 2).2 =
      ⟨[none, none], [[0, 0], [0, 0]], true⟩ := by
  decide

/-- Claim C10: when training_model is false, action selection returns
argmax(predict(state)) for every state, every uniform draw and every epsilon
(including epsilon = 1): the random override is conditioned on training. -/
theorem C10_no_exploration_when_not_training (predict : Nat → List ℚ)
    (rand : ℚ) (randomAction : Nat) (epsilon : ℚ) (inputs : Nat) :
    chooseAction predict rand randomAction epsilon false inputs =
      argmax (predict inputs) := by
  simp [chooseAction]

/-- Claim C7: with reward 20 and other -2 in the shaping constants, two
consecutive reward-collision ticks from rewarded_currently = false shape the
reward to 20 on the first tick and 20 - (20 - (-2)) = -2 on the second. -/
theorem C7_camping_penalty (s : AgentState)
    (h0 : s.rewarded_currently = false)
    (h1 : s.qlearn_params.reward = 20) (h2 : s.qlearn_params.other = -2) :
    (handleReward s (getReward s.qlearn_params true false) true).2.1 = 20 ∧
    (handleReward (handleReward s (getReward s.qlearn_params true false)
        true).1
      (getReward (handleReward s (getReward s.qlearn_params true false)
          true).1.qlearn_params true false)
      true).2.1 = -2 := by
  constructor
  · simp [handleReward, getReward, h0, h1]
  · simp [handleReward, getReward, h0, h1, h2]

theorem C7_camping_penalty_witness :
    (handleReward baseAgent
      (getReward baseAgent.qlearn_params true false) true).2.1 = 20 ∧
    (handleReward (handleReward baseAgent
        (getReward baseAgent.qlearn_params true false) true).1
      (getReward (handleReward baseAgent
          (getReward baseAgent.qlearn_params true false) true).1.qlearn_params
        true false)
      true).2.1 = -2 :=
  C7_camping_penalty baseAgent rfl rfl rfl

/-- The agent state after k consecutive _handle_reward calls with
reward_collision = false and wall_collision = false (so the base reward each
tick is the other-penalty); the restart flag is returned, not stored, so no
counter reset intervenes. -/
def stagnationState (s : AgentState) : Nat → AgentState
  | 0 => s
  | k + 1 =>
      (handleReward (stagnationState s k)
        (getReward (stagnationState s k).qlearn_params false false) false).1

lemma stagnationState_fields (s : AgentState) (k : Nat) :
    (stagnationState s k).steps_without_reward =
      s.steps_without_reward + k ∧
    (stagnationState s k).input_shape = s.input_shape ∧
    (stagnationState s k).qlearn_params = s.qlearn_params := by
  induction k with
  | zero => exact ⟨rfl, rfl, rfl⟩
  | succ k ih =>
    obtain ⟨h1, h2, h3⟩ := ih
    refine ⟨?_, ?_, ?_⟩ <;>
      simp [stagnationState, handleReward, h1, h2, h3] <;>
      split <;> simp <;> omega

/-- Claim C6: on a 10 x 10 observation grid, starting from a zero stagnation
counter, consecutive reward-free collision-free ticks 1 through 99 do not set
the restart flag; tick 100 sets restart = true and adds the wall penalty to
that tick's shaped reward (which is then other + wall). -/
theorem C6_stagnation_restart (s : AgentState)
    (h0 : s.steps_without_reward = 0) (hsh : s.input_shape = (10, 10)) :
    (∀ k, 1 ≤ k → k ≤ 99 →
      (handleReward (stagnationState s (k - 1))
        (getReward (stagnationState s (k - 1)).qlearn_params false false)
        false).2.2 = false) ∧
    (handleReward (stagnationState s 99)
      (getReward (stagnationState s 99).qlearn_params false false)
      false).2.2 = true ∧
    (handleReward (stagnationState s 99)
      (getReward (stagnationState s 99).qlearn_params false false)
      false).2.1 = s.qlearn_params.other + s.qlearn_params.wall := by
  refine ⟨fun k hk1 hk99 => ?_, ?_, ?_⟩
  · obtain ⟨hs, hi, hq⟩ := stagnationState_fields s (k - 1)
    simp only [handleReward, getReward, hs, hi, hq, h0, hsh]
    have hlt : ¬ 99 ≤ k - 1 := by omega
    simp [hlt]
  · obtain ⟨hs, hi, hq⟩ := stagnationState_fields s 99
    simp only [handleReward, getReward, hs, hi, hq, h0, hsh]
    norm_num
  · obtain ⟨hs, hi, hq⟩ := stagnationState_fields s 99
    simp only [handleReward, getReward, hs, hi, hq, h0, hsh]
    norm_num

theorem C6_stagnation_restart_witness :
    (handleReward (stagnationState baseAgent (50 - 1))
      (getReward (stagnationState baseAgent (50 - 1)).qlearn_params false
        false) false).2.2 = false ∧
    (handleReward (stagnationState baseAgent 99)
      (getReward (stagnationState baseAgent 99).qlearn_params false false)
      false).2.2 = true ∧
    (handleReward (stagnationState baseAgent 99)
      (getReward (stagnationState baseAgent 99).qlearn_params false false)
      false).2.1 = -22 := by
  obtain ⟨h1, h2, h3⟩ := C6_stagnation_restart baseAgent rfl rfl
  refine ⟨h1 50 (by norm_num) (by norm_num), h2, ?_⟩
  rw [h3]
  decide

/-- The agent state after k successive wall-collision ticks seen by
_handle_collision. -/
def collideN (shuffle : List Experience → List Experience) (s : AgentState) :
    Nat → Option AgentState
  | 0 => some s
  | k + 1 =>
      (collideN shuffle s k).bind fun s0 =>
        (handleCollision shuffle s0 true).map Prod.fst

lemma handleCollision_fields {shuffle : List Experience → List Experience}
    {s : AgentState} {sa : Nat} (hsa : s.save_after = some sa)
    (hz : sa ≠ 0) :
    ∃ s1 ev, handleCollision shuffle s true = some (s1, ev) ∧
      s1.collision_count = s.collision_count + 1 ∧
      s1.save_after = s.save_after ∧
      s1.training_model = s.training_model := by
  unfold handleCollision
  rw [hsa]
  simp only [if_pos rfl, if_neg hz]
  by_cases ht : s.training_model = true
  · exact ⟨_, _, rfl, by simp [ht, trainStep], by simp [ht, trainStep, hsa],
      by simp [ht, trainStep]⟩
  · exact ⟨_, _, rfl, by simp [ht], by simp [ht, hsa], by simp [ht]⟩

lemma collideN_fields (shuffle : List Experience → List Experience)
    (s : AgentState) {sa : Nat} (hsa : s.save_after = some sa) (hz : sa ≠ 0)
    (k : Nat) :
    ∃ s0, collideN shuffle s k = some s0 ∧
      s0.collision_count = s.collision_count + k ∧
      s0.save_after = s.save_after ∧
      s0.training_model = s.training_model := by
  induction k with
  | zero => exact ⟨s, rfl, rfl, rfl, rfl⟩
  | succ k ih =>
    obtain ⟨s0, hrun, hc, hsave, ht⟩ := ih
    obtain ⟨s1, ev, hstep, hc1, hsave1, ht1⟩ :=
      @handleCollision_fields shuffle s0 sa (hsave.trans hsa) hz
    refine ⟨s1, ?_, by omega, hsave1.trans hsave, ht1.trans ht⟩
    simp [collideN, hrun, hstep]

/-- Claim C8: with save_after = 5 and the count starting at 0, the k-th wall
collision (0-indexed, the membership test on collision_count before the
increment) emits a checkpoint save tagged with the current collision count k
exactly when k % 5 = 0, and emits no save otherwise (plus the training pass
when training is enabled). -/
theorem C8_checkpoint_cadence (shuffle : List Experience → List Experience)
    (s : AgentState) (k : Nat) (h0 : s.collision_count = 0)
    (hsa : s.save_after = some 5) :
    ((collideN shuffle s k).bind fun sk =>
      (handleCollision shuffle sk true).map fun r => r.2) =
    some ((if k % 5 = 0 then [TickEvent.saveCheckpoint k] else []) ++
      (if s.training_model = true then [TickEvent.collisionTrain] else [])) := by
  obtain ⟨sk, hrun, hc, hsave, ht⟩ :=
    collideN_fields shuffle s hsa (by norm_num) k
  rw [hrun, Option.some_bind]
  unfold handleCollision
  rw [hsave.trans hsa]
  simp only [if_pos rfl]
  norm_num [hc, h0, ht]
  by_cases htm : s.training_model = true <;> simp [htm]

theorem C8_checkpoint_cadence_witness :
    ((collideN idShuffle baseAgent 5).bind fun sk =>
      (handleCollision idShuffle sk true).map fun r => r.2) =
    some ((if 5 % 5 = 0 then [TickEvent.saveCheckpoint 5] else []) ++
      (if baseAgent.training_model = true then [TickEvent.collisionTrain]
       else [])) :=
  C8_checkpoint_cadence idShuffle baseAgent 5 rfl rfl

lemma handleCollision_false (shuffle : List Experience → List Experience)
    (s : AgentState) : handleCollision shuffle s false = some (s, []) := rfl

lemma handleCollision_true (shuffle : List Experience → List Experience)
    (s : AgentState) {k : Nat} (hk : s.save_after = some (k + 1)) :
    handleCollision shuffle s true =
      some ({ (if s.training_model = true then trainStep shuffle s else s) with
            collision_count := s.collision_count + 1 },
        (if s.collision_count % (k + 1) = 0 then
          [TickEvent.saveCheckpoint s.collision_count]
         else []) ++
        (if s.training_model = true then [TickEvent.collisionTrain]
         else [])) := by
  unfold handleCollision
  rw [hk]
  by_cases ht : s.training_model = true <;> simp [ht, trainStep]

lemma handleReward_state (s : AgentState) (r : Int) (rc : Bool) :
    (handleReward s r rc).1 =
      if rc = true then
        { s with steps_without_reward := 0, rewarded_currently := true }
      else
        { s with steps_without_reward := s.steps_without_reward + 1,
                 rewarded_currently := false } := by
  unfold handleReward
  by_cases hrc : rc = true <;> simp [hrc] <;> split <;> rfl

lemma handleReward_restart (s : AgentState) (r : Int) (rc : Bool) :
    (handleReward s r rc).2.2 =
      (!rc && decide (s.input_shape.1 * s.input_shape.2 ≤
        s.steps_without_reward + 1)) := by
  unfold handleReward
  by_cases hrc : rc = true
  · simp [hrc]
    split <;> rfl
  · simp only [if_neg hrc]
    rw [Bool.not_eq_true] at hrc
    subst hrc
    by_cases hle : s.input_shape.1 * s.input_shape.2 ≤
        s.steps_without_reward + 1 <;> simp [hle]

lemma addExperience_ne_none {m : ReplayMemory} (hcap : m.max_size ≠ some 0)
    (hsz : m.size = m.arr.length) (ex : Experience) :
    addExperience m ex ≠ none := by
  unfold addExperience
  by_cases hfull : m.max_size = some m.size
  · cases harr : m.arr with
    | nil =>
      exfalso
      apply hcap
      rw [hfull, hsz, harr]
      rfl
    | cons e rest =>
      rw [if_pos hfull]
      simp
  · rw [if_neg hfull]
    simp

/-- Claim C4 counterexample: with save_after left at its constructor default
(None) a wall-collision tick raises (collision_count % None is a TypeError),
so the per-tick computation is not total there. -/
theorem C4_default_save_after_raises :
    update idShuffle predictC 0 0 { baseAgent with save_after := none } 5
      false true = none := by
  decide

/-- Claim C4 as amended: the per-tick computation (reward shaping, scheduling,
policy selection) is total for every valid in-range input provided save_after
is a positive integer whenever a wall collision occurs; the replay capacity
is not zero and the buffer size field matches its contents (true of every
constructed agent), and shuffles permute the buffer. -/
theorem C4_tick_total_amended (shuffle : List Experience → List Experience)
    (predict : Nat → List ℚ) (rand : ℚ) (randomAction : Nat) (s : AgentState)
    (inputs : Nat) (rc wc : Bool)
    (hshuffle : ∀ l, (shuffle l).Perm l)
    (hsa : wc = true → ∃ k, s.save_after = some (k + 1))
    (hcap : s.replay_memory.max_size ≠ some 0)
    (hsz : s.replay_memory.size = s.replay_memory.arr.length) :
    update shuffle predict rand randomAction s inputs rc wc ≠ none := by
  have step1 : ∃ s1 evc, handleCollision shuffle s wc = some (s1, evc) ∧
      s1.replay_memory.max_size ≠ some 0 ∧
      s1.replay_memory.size = s1.replay_memory.arr.length := by
    cases wc with
    | false => exact ⟨s, [], handleCollision_false shuffle s, hcap, hsz⟩
    | true =>
      obtain ⟨k, hk⟩ := hsa rfl
      refine ⟨_, _, handleCollision_true shuffle s hk, ?_, ?_⟩
      · by_cases ht : s.training_model = true <;>
          simp [ht, trainStep, getRandomExperiences, hcap]
      · by_cases ht : s.training_model = true <;>
          simp [ht, trainStep, getRandomExperiences, hsz,
            (hshuffle _).length_eq]
  obtain ⟨s1, evc, hc, hcap1, hsz1⟩ := step1
  cases hhr : handleReward s1 (getReward s.qlearn_params rc wc) rc with
  | mk s2 rr =>
    obtain ⟨r2, restart⟩ := rr
    have hs2 : s2 =
        (handleReward s1 (getReward s.qlearn_params rc wc) rc).1 := by
      rw [hhr]
    have hmem2 : s2.replay_memory = s1.replay_memory := by
      rw [hs2, handleReward_state]
      by_cases hrc : rc = true <;> simp [hrc]
    have step3 : handleExperience s2 r2 inputs ≠ none := by
      unfold handleExperience
      cases hcs : s2.current_state with
      | none => simp
      | some prev =>
        cases hm : addExperience s2.replay_memory
            ⟨prev, s2.current_action.getD 0, r2, inputs⟩ with
        | none =>
          exact absurd hm
            (addExperience_ne_none (by rw [hmem2]; exact hcap1)
              (by rw [hmem2]; exact hsz1) _)
        | some m => simp [hm]
    cases he : handleExperience s2 r2 inputs with
    | none => exact absurd he step3
    | some q =>
      obtain ⟨s3, eve⟩ := q
      simp only [update, hc, hhr, he]
      simp

theorem C4_tick_total_amended_witness :
    update idShuffle predictC 0 0 baseAgent 5 false true ≠ none :=
  C4_tick_total_amended idShuffle predictC 0 0 baseAgent 5 false true
    (fun l => List.Perm.refl l) (fun _ => ⟨4, rfl⟩) (by decide) rfl

lemma handleCollision_events {shuffle : List Experience → List Experience}
    {s : AgentState} {wc : Bool} {s1 : AgentState} {evc : List TickEvent}
    (h : handleCollision shuffle s wc = some (s1, evc)) :
    evc = (if wc = true then
        (if s.collision_count % s.save_after.getD 1 = 0 then
          [TickEvent.saveCheckpoint s.collision_count]
         else []) ++
        (if s.training_model = true then [TickEvent.collisionTrain] else [])
      else []) ∧
    s1.current_state = s.current_state ∧
    s1.steps_without_reward = s.steps_without_reward ∧
    s1.input_shape = s.input_shape ∧
    s1.training_model = s.training_model ∧
    s1.train_each_step = s.train_each_step ∧
    s1.qlearn_params = s.qlearn_params := by
  cases wc with
  | false =>
    rw [handleCollision_false] at h
    injection h with h
    injection h with h1 h2
    subst h1
    subst h2
    simp
  | true =>
    cases hk : s.save_after with
    | none =>
      unfold handleCollision at h
      rw [hk] at h
      simp at h
    | some sa =>
      cases sa with
      | zero =>
        unfold handleCollision at h
        rw [hk] at h
        simp at h
      | succ k =>
        rw [handleCollision_true shuffle s hk] at h
        injection h with h
        injection h with h1 h2
        subst h1
        subst h2
        refine ⟨by simp [hk], ?_⟩
        by_cases ht : s.training_model = true <;> simp [ht, trainStep]

lemma handleExperience_events {s : AgentState} {r : Int} {inputs : Nat}
    {s3 : AgentState} {eve : List TickEvent}
    (h : handleExperience s r inputs = some (s3, eve)) :
    eve = (if s.current_state.isSome then [TickEvent.storeExperience]
      else []) ∧
    s3.training_model = s.training_model ∧
    s3.train_each_step = s.train_each_step := by
  unfold handleExperience at h
  cases hcs : s.current_state with
  | none =>
    rw [hcs] at h
    injection h with h
    injection h with h1 h2
    subst h1
    subst h2
    simp [hcs]
  | some prev =>
    simp only [hcs] at h
    cases hm : addExperience s.replay_memory
        ⟨prev, s.current_action.getD 0, r, inputs⟩ with
    | none =>
      simp only [hm] at h
      exact Option.noConfusion h
    | some m =>
      simp only [hm] at h
      injection h with h
      injection h with h1 h2
      subst h1
      subst h2
      simp [hcs]

lemma handleTraining_events (shuffle : List Experience → List Experience)
    (s : AgentState) :
    (handleTraining shuffle s).2 =
      if s.training_model = true ∧ s.train_each_step = true then
        [TickEvent.stepTrain]
      else [] := by
  unfold handleTraining
  split <;> rfl

/-- Claim C3 counterexample: at a concrete wall-collision tick with training
enabled and a previous state present, the tick's side effects in execution
order are base reward, checkpoint save, collision-triggered training, reward
shaping, experience storage, action selection: the scheduler's
collision-triggered training (index 2) runs before the current tick's
Experience is stored (index 4), refuting the claimed order. -/
theorem C3_counterexample :
    (update idShuffle predictC 0 0 baseAgent 5 false true).map
        (fun r => r.2.2) =
      some [TickEvent.computeBaseReward, TickEvent.saveCheckpoint 0,
        TickEvent.collisionTrain, TickEvent.shapeReward,
        TickEvent.storeExperience, TickEvent.selectAction 0] ∧
    [TickEvent.computeBaseReward, TickEvent.saveCheckpoint 0,
      TickEvent.collisionTrain, TickEvent.shapeReward,
      TickEvent.storeExperience,
      TickEvent.selectAction 0].indexOf TickEvent.collisionTrain <
    [TickEvent.computeBaseReward, TickEvent.saveCheckpoint 0,
      TickEvent.collisionTrain, TickEvent.shapeReward,
      TickEvent.storeExperience,
      TickEvent.selectAction 0].indexOf TickEvent.storeExperience := by
  constructor
  · decide
  · decide

/-- Claim C3 as amended: per tick the order is (a) compute the base reward,
then (b) run the scheduler's collision branch (checkpoint persistence, then
collision-triggered training), then (c) finish the shaped reward, then (d)
store the Experience for the previous state, then (e) run the per-step
training pass if configured, then (f) select the action, then (g) request a
restart if flagged. In particular the collision-triggered training runs
before - not after - the current tick's Experience is stored. -/
theorem C3_amended (shuffle : List Experience → List Experience)
    (predict : Nat → List ℚ) (rand : ℚ) (randomAction : Nat) (s : AgentState)
    (inputs : Nat) (rc wc : Bool) {s' : AgentState} {a : Nat}
    {tr : List TickEvent}
    (h : update shuffle predict rand randomAction s inputs rc wc =
      some (s', a, tr)) :
    tr = TickEvent.computeBaseReward ::
      ((if wc = true then
          (if s.collision_count % s.save_after.getD 1 = 0 then
            [TickEvent.saveCheckpoint s.collision_count]
           else []) ++
          (if s.training_model = true then [TickEvent.collisionTrain]
           else [])
        else []) ++
        TickEvent.shapeReward ::
        ((if s.current_state.isSome then [TickEvent.storeExperience]
          else []) ++
         (if s.training_model = true ∧ s.train_each_step = true then
           [TickEvent.stepTrain]
          else []) ++
         TickEvent.selectAction a ::
         (if rc = false ∧ s.input_shape.1 * s.input_shape.2 ≤
             s.steps_without_reward + 1 then
           [TickEvent.requestRestart]
          else []))) := by
  cases hc : handleCollision shuffle s wc with
  | none => simp [update, hc] at h
  | some p1 =>
    obtain ⟨s1, evc⟩ := p1
    obtain ⟨hevc, hcs1, hsteps1, hish1, htm1, htes1, hqp1⟩ :=
      handleCollision_events hc
    cases hhr : handleReward s1 (getReward s.qlearn_params rc wc) rc with
    | mk s2 rr =>
      obtain ⟨r2, restart⟩ := rr
      have hs2 : s2 =
          (handleReward s1 (getReward s.qlearn_params rc wc) rc).1 := by
        rw [hhr]
      have hcs2 : s2.current_state = s1.current_state := by
        rw [hs2, handleReward_state]
        by_cases hrc : rc = true <;> simp [hrc]
      have htm2 : s2.training_model = s1.training_model := by
        rw [hs2, handleReward_state]
        by_cases hrc : rc = true <;> simp [hrc]
      have htes2 : s2.train_each_step = s1.train_each_step := by
        rw [hs2, handleReward_state]
        by_cases hrc : rc = true <;> simp [hrc]
      have hres : restart = (!rc && decide (s.input_shape.1 *
          s.input_shape.2 ≤ s.steps_without_reward + 1)) := by
        rw [← hsteps1, ← hish1, ← handleReward_restart s1
          (getReward s.qlearn_params rc wc) rc, hhr]
      cases he : handleExperience s2 r2 inputs with
      | none => simp [update, hc, hhr, he] at h
      | some p3 =>
        obtain ⟨s3, eve⟩ := p3
        obtain ⟨heve, htm3, htes3⟩ := handleExperience_events he
        simp only [update, hc, hhr, he, Option.some.injEq,
          Prod.mk.injEq] at h
        obtain ⟨h1, h2, h3⟩ := h
        subst h2
        subst h3
        rw [hevc, heve, handleTraining_events, htm3, htes3, htm2, htes2,
          htm1, htes1, hcs2, hcs1, hres]
        by_cases hrc : rc = true <;>
          by_cases hcond : s.input_shape.1 * s.input_shape.2 ≤
            s.steps_without_reward + 1 <;>
          simp [hrc, hcond]

theorem C3_amended_witness :
    ([TickEvent.computeBaseReward, TickEvent.saveCheckpoint 0,
      TickEvent.collisionTrain, TickEvent.shapeReward,
      TickEvent.storeExperience, TickEvent.selectAction 0] :
        List TickEvent) =
      TickEvent.computeBaseReward ::
        ((if (true : Bool) = true then
            (if baseAgent.collision_count % baseAgent.save_after.getD 1 = 0
              then [TickEvent.saveCheckpoint baseAgent.collision_count]
             else []) ++
            (if baseAgent.training_model = true then
              [TickEvent.collisionTrain]
             else [])
          else []) ++
          TickEvent.shapeReward ::
          ((if baseAgent.current_state.isSome then
              [TickEvent.storeExperience]
            else []) ++
           (if baseAgent.training_model = true ∧
               baseAgent.train_each_step = true then
             [TickEvent.stepTrain]
            else []) ++
           TickEvent.selectAction 0 ::
           (if (false : Bool) = false ∧ baseAgent.input_shape.1 *
               baseAgent.input_shape.2 ≤
               baseAgent.steps_without_reward + 1 then
             [TickEvent.requestRestart]
            else []))) :=
  C3_amended idShuffle predictC 0 0 baseAgent 5 false true rfl

end QL
